import Mathlib

/-!
Verification of the workflow-orchestration core of the nauto-factory
repository: the per-run context store (`memory/session_manager.py`), the
metrics collector (`observability/logger.py`), and the workflow engine
(`agents/orchestrator.py`) with its bounded refinement loop.

Python dictionaries are embedded as association lists preserving insertion
order (an update of an existing key rewrites it in place; a new key is
appended at the end), matching CPython's ordered-dict semantics that the
source relies on.  Timestamps are irrelevant to every property considered
here and are omitted from the embedded records.
-/

namespace NautoFactory

/-- A dynamic (Python) value stored in a session's context.  Only the
shapes that actually flow through the orchestrator are represented; the
`typeName` tag mirrors Python's `type(v).__name__` as used by
`Session.compact_context`. -/
inductive PyVal where
  | str (s : String)
  | int (n : Int)
  | dict (d : List (String × PyVal))
  | pylist (l : List PyVal)
  | pynone
deriving Repr

/-- `type(v).__name__` for the embedded values. -/
def PyVal.typeName : PyVal → String
  | .str _ => "str"
  | .int _ => "int"
  | .dict _ => "dict"
  | .pylist _ => "list"
  | .pynone => "NoneType"

/-- `d[k] = v` on an insertion-ordered dictionary: rewrite the existing
entry in place, otherwise append at the end. -/
def dictSet (d : List (String × α)) (k : String) (v : α) : List (String × α) :=
  if (d.map Prod.fst).contains k then
    d.map (fun kv => if kv.1 = k then (k, v) else kv)
  else d ++ [(k, v)]

/-- `d.get(k)` on an insertion-ordered dictionary. -/
def dictGet (d : List (String × α)) (k : String) : Option α :=
  (d.find? (fun kv => kv.1 == k)).map Prod.snd

/-- One entry of `Session.history`: `{"timestamp": ..., "action": ...,
"key": ...}` with the timestamp omitted. -/
structure HistEntry where
  action : String
  key : String
deriving Repr, DecidableEq

/-- `Session` from `memory/session_manager.py`: per-run context store.
`metadata` values are only ever the `compacted_items` map (key → type
name), so its value type is specialised to that shape. -/
structure Session where
  session_id : String
  context : List (String × PyVal) := []
  metrics : List (String × Int) := []
  history : List HistEntry := []
  metadata : List (String × List (String × String)) := []
deriving Repr

/-- `Session.add_context`: insert/overwrite the key and append a
`context_added` event to the history (also on overwrite). -/
def Session.add_context (s : Session) (key : String) (value : PyVal) : Session :=
  { s with
    context := dictSet s.context key value
    history := s.history ++ [{ action := "context_added", key := key }] }

/-- `Session.get_context`: pure lookup with default. -/
def Session.get_context (s : Session) (key : String) (default : PyVal) : PyVal :=
  (dictGet s.context key).getD default

/-- `Session.increment_metric`: create the counter at 0 when absent, then
add `amount`. -/
def Session.increment_metric (s : Session) (name : String) (amount : Int) : Session :=
  { s with metrics := dictSet s.metrics name ((dictGet s.metrics name).getD 0 + amount) }

/-- `Session.get_metric`: pure lookup with default. -/
def Session.get_metric (s : Session) (name : String) (default : Int) : Int :=
  (dictGet s.metrics name).getD default

/-- The backward scan of `Session.compact_context`: walk the (already
reversed) history, collect the first occurrence of each distinct key of a
`context_added` event, and stop as soon as `keep` distinct keys are
collected (the length test runs after each `context_added` entry, exactly
as in the source). -/
def collectRecent : List HistEntry → Nat → List String → List String
  | [], _, acc => acc
  | e :: rest, keep, acc =>
    if e.action = "context_added" then
      let acc' := if acc.contains e.key then acc else acc ++ [e.key]
      if keep ≤ acc'.length then acc' else collectRecent rest keep acc'
    else collectRecent rest keep acc

/-- The "recency" set of a session: first occurrence of each distinct key
scanning history from newest to oldest, at most `keep` keys. -/
def Session.recent_keys (s : Session) (keep : Nat) : List String :=
  collectRecent s.history.reverse keep []

/-- `Session.compact_context`: when the context holds more than
`keep_recent` keys, rebuild it restricted to the recency set and record
every dropped key with its value's type name under
`metadata["compacted_items"]`; otherwise do nothing. -/
def Session.compact_context (s : Session) (keep_recent : Nat) : Session :=
  if keep_recent < s.context.length then
    let recent := s.recent_keys keep_recent
    let compacted := s.context.filter (fun kv => recent.contains kv.1)
    let removed := (s.context.filter (fun kv => !recent.contains kv.1)).map
      (fun kv => (kv.1, kv.2.typeName))
    { s with
      context := compacted
      metadata := dictSet s.metadata "compacted_items" removed }
  else s

/-- Add a list of keys in order, each with a string value (the shape of the
spec's compaction scenarios). -/
def addKeys (s : Session) (keys : List String) : Session :=
  keys.foldl (fun acc k => acc.add_context k (.str k)) s

/-- Ten distinct keys added in order `key_0 .. key_9`, no overwrites. -/
def sTen : Session :=
  addKeys { session_id := "compaction-demo" }
    ["key_0", "key_1", "key_2", "key_3", "key_4",
     "key_5", "key_6", "key_7", "key_8", "key_9"]

/-- Same ten keys, then `key_0` re-added after `key_5..key_9`: 11 touches,
10 distinct keys. -/
def sEleven : Session := sTen.add_context "key_0" (.str "key_0 again")

/-- The five public `Session` operations, reified so that the invariant of
the data model can be stated once over all of them.  `get_context` and
`get_metric` are pure lookups in the source and leave the state untouched. -/
inductive SessionOp where
  | add_context (key : String) (value : PyVal)
  | get_context (key : String) (default : PyVal)
  | increment_metric (name : String) (amount : Int)
  | get_metric (name : String) (default : Int)
  | compact_context (keep_recent : Nat)

/-- State effect of each `Session` operation. -/
def SessionOp.apply : SessionOp → Session → Session
  | .add_context k v, s => s.add_context k v
  | .get_context _ _, s => s
  | .increment_metric n a, s => s.increment_metric n a
  | .get_metric _ _, s => s
  | .compact_context keep, s => s.compact_context keep

/-- The key `k` has at least one `context_added` event in the history. -/
def Session.Logged (s : Session) (k : String) : Prop :=
  ∃ e ∈ s.history, e.action = "context_added" ∧ e.key = k

instance (s : Session) (k : String) : Decidable (s.Logged k) :=
  List.decidableBEx _ s.history

/-- Data-model invariant of the context store: every key present in
`context` has at least one corresponding `context_added` entry in
`history`. -/
def Session.ContextLogged (s : Session) : Prop :=
  ∀ kv ∈ s.context, s.Logged kv.1

instance (s : Session) : Decidable s.ContextLogged :=
  List.decidableBAll _ s.context

/-! ## Metrics collector (`observability/logger.py`)

`MetricsCollector.metrics` is a dict with the three lists `requests`,
`agent_calls` and `errors`; the on-disk flush (`_save_metrics`) and the
timestamp fields are I/O concerns with no bearing on the claims and are
omitted. -/

/-- One element of `metrics["requests"]`.  A fresh record starts with
`status = "started"`; completion/failure rewrite `status` and fill the
corresponding payload fields. -/
structure RequestRecord where
  session_id : String
  status : String
  execution_time : Option Int := Option.none
  artifacts_count : Option Nat := Option.none
  error : Option String := Option.none
deriving Repr, DecidableEq

/-- One element of `metrics["agent_calls"]`. -/
structure AgentCallRecord where
  agent : String
  session_id : String
  duration : Int
  success : Bool
deriving Repr, DecidableEq

/-- In-memory state of `MetricsCollector`. -/
structure MetricsCollector where
  requests : List RequestRecord := []
  agent_calls : List AgentCallRecord := []
  errors : List (String × String) := []
deriving Repr, DecidableEq

/-- `record_request_started`: append a `started` record (never checks for
duplicates). -/
def MetricsCollector.record_request_started (m : MetricsCollector) (sid : String) :
    MetricsCollector :=
  { m with requests := m.requests ++ [{ session_id := sid, status := "started" }] }

/-- The `for request in self.metrics["requests"]: ... break` pattern shared
by `record_request_completed` and `record_request_failed`: walk the list
from the FRONT and rewrite the first record whose `session_id` matches and
whose `status` is `"started"`; leave everything else alone. -/
def updateFirstStarted (l : List RequestRecord) (sid : String)
    (g : RequestRecord → RequestRecord) : List RequestRecord :=
  match l with
  | [] => []
  | r :: rest =>
    if r.session_id = sid ∧ r.status = "started" then g r :: rest
    else r :: updateFirstStarted rest sid g

/-- The field rewrite performed by `record_request_completed` on the record
it finds. -/
def completeRecord (t : Int) (n : Nat) (r : RequestRecord) : RequestRecord :=
  { r with status := "completed", execution_time := some t, artifacts_count := some n }

/-- The field rewrite performed by `record_request_failed` on the record it
finds. -/
def failRecord (err : String) (r : RequestRecord) : RequestRecord :=
  { r with status := "failed", error := some err }

/-- `record_request_completed`. -/
def MetricsCollector.record_request_completed (m : MetricsCollector) (sid : String)
    (t : Int) (n : Nat) : MetricsCollector :=
  { m with requests := updateFirstStarted m.requests sid (completeRecord t n) }

/-- `record_request_failed`: same forward scan, plus an unconditional
append to `metrics["errors"]`. -/
def MetricsCollector.record_request_failed (m : MetricsCollector) (sid : String)
    (err : String) : MetricsCollector :=
  { m with
    requests := updateFirstStarted m.requests sid (failRecord err)
    errors := m.errors ++ [(sid, err)] }

/-! ## Workflow engine (`agents/orchestrator.py`)

The external collaborators (parser, generators, reviewer) are excluded from
the spec's scope; each call is modelled by its outcome: `.ok` with the
result record the collaborator returns, or `.error e` for a raised
exception with message `e`.  The runs of one request are deterministic, so
the two calls made inside refinement iteration `i` (`refine_playbook` and
the re-review) are supplied as functions of `i` (numbered from 1).  The
collaborators' own mutations of the session are internal to them and out of
scope; the session field tracks exactly the orchestrator's `add_context`
and `compact_context` calls. -/

/-- Result of `spec_parser.parse_specification` (`{"valid": ..,
"parsed_spec": ..}`). -/
structure SpecParseRes where
  valid : Bool
  parsed_spec : PyVal

/-- Result record of `documentation_agent.generate_documentation` and of
`ansible_generator.refine_playbook` (`{"file_path": ..}`). -/
structure GenRes where
  file_path : String
deriving Repr, DecidableEq

/-- Result record of `ansible_generator.generate_playbook`
(`{"file_path": .., "inventory_path": ..?}`). -/
structure AnsibleRes where
  file_path : String
  inventory_path : Option String

/-- Result record of `code_reviewer.review_code`; only `report_path` and
`critical_issues` are read by the engine's control flow (the `issues` list
feeds prompt text only, which is out of scope). -/
structure ReviewRes where
  report_path : String
  critical_issues : Nat
deriving Repr, DecidableEq

/-- Result record of `test_generator.generate_tests` (`{"test_dir": ..}`). -/
structure TestRes where
  test_dir : String

/-- Result record of `cicd_agent.generate_pipeline`
(`{"pipeline_path": ..}`). -/
structure CicdRes where
  pipeline_path : String

/-- Outcomes of every external collaborator call a single run can make,
plus the filesystem predicate consulted by `_validate_artifacts`. -/
structure Env where
  parse : Except String SpecParseRes
  gen_documentation : Except String GenRes
  gen_ansible : Except String AnsibleRes
  review_initial : Except String ReviewRes
  refine : Nat → Except String GenRes
  review_refined : Nat → Except String ReviewRes
  gen_tests : Except String TestRes
  gen_cicd : Except String CicdRes
  path_exists : String → Bool

/-- `GenRes` as a context value. -/
def GenRes.toVal (g : GenRes) : PyVal := .dict [("file_path", .str g.file_path)]

/-- `AnsibleRes` as a context value. -/
def AnsibleRes.toVal (a : AnsibleRes) : PyVal :=
  .dict [("file_path", .str a.file_path),
         ("inventory_path", (a.inventory_path.map PyVal.str).getD .pynone)]

/-- `ReviewRes` as a context value. -/
def ReviewRes.toVal (r : ReviewRes) : PyVal :=
  .dict [("report_path", .str r.report_path),
         ("critical_issues", .int r.critical_issues)]

/-- `session.compact_context(keep_recent=3)` as used inside the refinement
loop. -/
def csession (s : Session) : Session := s.compact_context 3

/-- Body of `_refinement_loop`'s `while iteration < max_iterations` loop.
The guard is encoded by the fuel argument with the invariant
`fuel = max_iterations - iteration`, which holds at the entry point
(`iteration = 0`, `fuel = max_iterations`) and is preserved by each step,
so `fuel = 0` is exactly `iteration ≥ max_iterations`.  Each step mirrors
one iteration: bump the counter, call `refine_playbook`, re-review, return
the revision on zero critical findings, otherwise make the revision the new
baseline, compact the session and continue.  A raised exception propagates
(it is caught by the engine's top-level handler).  The result carries, next
to the artifact the source returns, the final session, the number of
iterations performed and the number of `compact_context` calls made — the
latter two are direct observations of the run, not extra behaviour. -/
def refinement_loop_from (env : Env) :
    Nat → Nat → Session → GenRes → Except String (GenRes × Session × Nat × Nat)
  | 0, iteration, s, current => .ok (current, s, iteration, 0)
  | fuel + 1, iteration, s, current =>
    let it := iteration + 1
    match env.refine it with
    | .error e => .error e
    | .ok refined =>
      match env.review_refined it with
      | .error e => .error e
      | .ok new_review =>
        if new_review.critical_issues = 0 then
          .ok (refined, s, it, 0)
        else
          match refinement_loop_from env fuel it (csession s) refined with
          | .error e => .error e
          | .ok (res, s', iters, comps) => .ok (res, s', iters, comps + 1)

/-- `_refinement_loop(ansible_result, .., max_iterations)`: the loop starts
with `iteration = 0` and the incoming artifact as baseline. -/
def refinement_loop (env : Env) (s : Session) (ansible_result : GenRes)
    (max_iterations : Nat) : Except String (GenRes × Session × Nat × Nat) :=
  refinement_loop_from env max_iterations 0 s ansible_result

/-- `_validate_artifacts`: every required artifact type must be present in
the artifact map and its recorded location must exist on disk; the first
miss yields `false`. -/
def validate_artifacts (artifacts : List (String × String))
    (path_exists : String → Bool) : Bool :=
  ["ansible_playbook", "code_review", "tests", "cicd_pipeline"].all
    (fun t =>
      match dictGet artifacts t with
      | Option.none => false
      | some path => path_exists path)

/-- `AutomationResult` (metrics snapshot and wall-clock duration omitted:
no claim concerns them). -/
structure AutomationResult where
  success : Bool
  artifacts : List (String × String)
  errors : List String
deriving Repr, DecidableEq

/-- `_create_error_result`: `success=False` and an EMPTY artifact map, no
matter what had been produced before the failure. -/
def create_error_result (errors : List String) : AutomationResult :=
  { success := false, artifacts := [], errors := errors }

/-- Intermediate outcome of a run, before `_create_error_result` /
`AutomationResult` packaging: either one of the early error returns (each
`return self._create_error_result(..)` and the top-level `except` both

land here), or the fall-through success return.  `invocations` lists the
collaborators whose calls were started, in order; `validation` is the
boolean `_validate_artifacts` computed (reached only on the success path,
where the source discards it). -/
inductive ProcOut where
  | failed (errors : List String) (invocations : List String)
  | completed (artifacts : List (String × String)) (errors : List String)
      (invocations : List String) (validation : Bool)

/-- Phase 3b/3c + phase 4 of `process_automation_request` (test generation,
CI/CD generation, validation, success return). -/
def pipeline_tail (env : Env) (artifacts : List (String × String))
    (errors invocations : List String) (session : Session) : ProcOut :=
  let invocations := invocations ++ ["test_generator"]
  match env.gen_tests with
  | .error e => .failed (errors ++ ["Orchestration error: " ++ e]) invocations
  | .ok t =>
    let artifacts := dictSet artifacts "tests" t.test_dir
    let session := session.add_context "tests" (.dict [("test_dir", .str t.test_dir)])
    let invocations := invocations ++ ["cicd_agent"]
    match env.gen_cicd with
    | .error e => .failed (errors ++ ["Orchestration error: " ++ e]) invocations
    | .ok c =>
      let artifacts := dictSet artifacts "cicd_pipeline" c.pipeline_path
      let session := session.add_context "cicd"
        (.dict [("pipeline_path", .str c.pipeline_path)])
      let v := validate_artifacts artifacts env.path_exists
      .completed artifacts errors invocations v

/-- `process_automation_request`, phases 1-4.  Sequential parse; parallel
fan-out to documentation and playbook generation with a join barrier
(`asyncio.gather(.., return_exceptions=True)`: both outcomes are always
inspected, each branch's exception captured individually, documentation
first); review; optional refinement loop (`max_iterations=3`); test, CI/CD,
validation.  Collaborator exceptions in phases 3-4 reach the top-level
`except` which appends `"Orchestration error: .."` and returns the error
result. -/
def processAux (env : Env) (session_id : String) : ProcOut :=
  let session : Session := { session_id := session_id }
  match env.parse with
  | .error e => .failed ["Orchestration error: " ++ e] ["spec_parser"]
  | .ok spec_result =>
    if spec_result.valid = false then
      .failed ["Specification validation failed"] ["spec_parser"]
    else
      let session := session.add_context "parsed_spec" spec_result.parsed_spec
      let invocations := ["spec_parser", "documentation_agent", "ansible_generator"]
      let docState :
          List (String × String) × List String × Session :=
        match env.gen_documentation with
        | .error e => ([], ["Documentation generation failed: " ++ e], session)
        | .ok d =>
          ([("documentation", d.file_path)], [],
           session.add_context "documentation" d.toVal)
      let artifacts := docState.1
      let errors := docState.2.1
      let session := docState.2.2
      match env.gen_ansible with
      | .error e =>
        .failed (errors ++ ["Ansible generation failed: " ++ e]) invocations
      | .ok a =>
        let artifacts := dictSet artifacts "ansible_playbook" a.file_path
        let artifacts := dictSet artifacts "inventory" (a.inventory_path.getD "")
        let session := session.add_context "ansible_playbook" a.toVal
        let invocations := invocations ++ ["code_reviewer"]
        match env.review_initial with
        | .error e => .failed (errors ++ ["Orchestration error: " ++ e]) invocations
        | .ok review_result =>
          let artifacts := dictSet artifacts "code_review" review_result.report_path
          let session := session.add_context "code_review" review_result.toVal
          if 0 < review_result.critical_issues then
            match refinement_loop env session { file_path := a.file_path } 3 with
            | .error e =>
              .failed (errors ++ ["Orchestration error: " ++ e]) invocations
            | .ok (refined, session', _, _) =>
              let artifacts := dictSet artifacts "ansible_playbook" refined.file_path
              let session := session'.add_context "refined_playbook" refined.toVal
              pipeline_tail env artifacts errors invocations session
          else
            pipeline_tail env artifacts errors invocations session

/-- Packaged run output: the returned `AutomationResult`, the ordered list
of collaborators invoked, and (when the run reached phase 4) the boolean
`_validate_artifacts` computed. -/
structure RunOutput where
  result : AutomationResult
  invocations : List String
  validation : Option Bool
deriving Repr, DecidableEq

/-- `process_automation_request` end to end. -/
def process_automation_request (env : Env) (session_id : String) : RunOutput :=
  match processAux env session_id with
  | .failed errs inv =>
    { result := create_error_result errs, invocations := inv, validation := Option.none }
  | .completed arts errs inv v =>
    { result := { success := true, artifacts := arts, errors := errs }
      invocations := inv, validation := some v }

/-! ## Helper lemmas about insertion-ordered dictionaries -/

theorem dictSet_cons {α : Type} (a : String × α) (d : List (String × α)) (k : String) (v : α) :
    dictSet (a :: d) k v =
      if a.1 = k then (k, v) :: d.map (fun kv => if kv.1 = k then (k, v) else kv)
      else a :: dictSet d k v := by
  by_cases hak : a.1 = k
  · simp [dictSet, List.contains_cons, hak]
  · have hka : (k == a.1) = false := by
      simp only [beq_eq_false_iff_ne, ne_eq]
      exact fun h' => hak h'.symm
    have hcc : (((a :: d).map Prod.fst).contains k) = ((d.map Prod.fst).contains k) := by
      simp only [List.map_cons]
      rw [List.contains_cons, hka, Bool.false_or]
    rw [if_neg hak]
    unfold dictSet
    rw [hcc]
    split
    · simp [hak]
    · simp

theorem dictGet_cons {α : Type} (a : String × α) (d : List (String × α)) (k : String) :
    dictGet (a :: d) k = if a.1 = k then some a.2 else dictGet d k := by
  by_cases hak : a.1 = k <;> simp [dictGet, List.find?_cons, hak]

theorem dictGet_map_set {α : Type} (d : List (String × α)) (k k' : String) (v : α)
    (h : k' ≠ k) :
    dictGet (d.map (fun kv => if kv.1 = k then (k, v) else kv)) k' = dictGet d k' := by
  induction d with
  | nil => rfl
  | cons b d ih =>
    simp only [List.map_cons]
    by_cases hbk : b.1 = k
    · rw [if_pos hbk]
      have h2 : ¬(b.1 = k') := by rw [hbk]; exact Ne.symm h
      rw [dictGet_cons, dictGet_cons, ih]
      simp [Ne.symm h, h2]
    · rw [if_neg hbk, dictGet_cons, dictGet_cons, ih]

theorem dictGet_dictSet_self {α : Type} (d : List (String × α)) (k : String) (v : α) :
    dictGet (dictSet d k v) k = some v := by
  induction d with
  | nil => simp [dictSet, dictGet]
  | cons a d ih =>
    rw [dictSet_cons]
    by_cases hak : a.1 = k
    · rw [if_pos hak, dictGet_cons]; simp
    · rw [if_neg hak, dictGet_cons, if_neg hak, ih]

theorem dictGet_dictSet_ne {α : Type} (d : List (String × α)) (k k' : String) (v : α)
    (h : k' ≠ k) : dictGet (dictSet d k v) k' = dictGet d k' := by
  induction d with
  | nil => simp [dictSet, dictGet, h, Ne.symm h]
  | cons a d ih =>
    rw [dictSet_cons]
    by_cases hak : a.1 = k
    · rw [if_pos hak, dictGet_cons, dictGet_cons]
      have h2 : ¬(a.1 = k') := by rw [hak]; exact Ne.symm h
      rw [dictGet_map_set d k k' v h]
      simp [Ne.symm h, h2]
    · rw [if_neg hak, dictGet_cons, dictGet_cons, ih]

theorem mem_dictSet {α : Type} {d : List (String × α)} {k : String} {v : α}
    {kv : String × α} (h : kv ∈ dictSet d k v) : kv = (k, v) ∨ kv ∈ d := by
  unfold dictSet at h
  split at h
  · obtain ⟨a, ha, hfa⟩ := List.mem_map.mp h
    by_cases h1 : a.1 = k
    · left; simp [h1] at hfa; exact hfa.symm
    · right; simp [h1] at hfa; exact hfa ▸ ha
  · rcases List.mem_append.mp h with h2 | h2
    · right; exact h2
    · left; simpa using h2


def noStartedFor (l : List RequestRecord) (sid : String) : Prop :=
  ∀ r ∈ l, ¬(r.session_id = sid ∧ r.status = "started")

instance (l : List RequestRecord) (sid : String) : Decidable (noStartedFor l sid) :=
  List.decidableBAll _ l

theorem updateFirstStarted_no_match (l : List RequestRecord) (sid : String)
    (g : RequestRecord → RequestRecord) (h : noStartedFor l sid) :
    updateFirstStarted l sid g = l := by
  induction l with
  | nil => rfl
  | cons r rest ih =>
    have hr := h r (List.mem_cons_self r rest)
    simp only [updateFirstStarted]
    rw [if_neg hr, ih (fun r' hr' => h r' (List.mem_cons_of_mem r hr'))]

theorem updateFirstStarted_found (l₁ : List RequestRecord) (r : RequestRecord)
    (l₂ : List RequestRecord) (sid : String) (g : RequestRecord → RequestRecord)
    (h₁ : noStartedFor l₁ sid) (hsid : r.session_id = sid) (hst : r.status = "started") :
    updateFirstStarted (l₁ ++ r :: l₂) sid g = l₁ ++ g r :: l₂ := by
  induction l₁ with
  | nil =>
    simp only [List.nil_append, updateFirstStarted]
    rw [if_pos ⟨hsid, hst⟩]
  | cons a l₁ ih =>
    have ha := h₁ a (List.mem_cons_self a l₁)
    simp only [List.cons_append, updateFirstStarted, List.append_eq]
    rw [if_neg ha, ih (fun r' hr' => h₁ r' (List.mem_cons_of_mem a hr'))]

def HistoryExtends (s s' : Session) : Prop :=
  ∃ t, s'.history = s.history ++ t

theorem Logged_mono {s s' : Session} (h : HistoryExtends s s') {k : String}
    (hl : s.Logged k) : s'.Logged k := by
  obtain ⟨t, ht⟩ := h
  obtain ⟨e, he, hp⟩ := hl
  exact ⟨e, ht ▸ List.mem_append_left t he, hp⟩

theorem sessionOp_preserves (op : SessionOp) (s : Session) (hinv : s.ContextLogged) :
    (op.apply s).ContextLogged ∧ HistoryExtends s (op.apply s) := by
  cases op with
  | add_context k v =>
    have hext : HistoryExtends s ((SessionOp.add_context k v).apply s) :=
      ⟨[{ action := "context_added", key := k }], rfl⟩
    refine ⟨?_, hext⟩
    intro kv hkv
    rcases mem_dictSet hkv with h1 | h1
    · exact ⟨{ action := "context_added", key := k },
        List.mem_append_right _ (List.mem_singleton_self _), rfl, by rw [h1]⟩
    · exact Logged_mono hext (hinv kv h1)
  | get_context k d => exact ⟨hinv, ⟨[], by simp [SessionOp.apply]⟩⟩
  | get_metric n d => exact ⟨hinv, ⟨[], by simp [SessionOp.apply]⟩⟩
  | increment_metric n a =>
    exact ⟨fun kv hkv => hinv kv hkv, ⟨[], by simp [SessionOp.apply, Session.increment_metric]⟩⟩
  | compact_context keep =>
    by_cases hc : keep < s.context.length
    · have hext : HistoryExtends s ((SessionOp.compact_context keep).apply s) :=
        ⟨[], by simp only [SessionOp.apply, Session.compact_context, if_pos hc,
          List.append_nil]⟩
      refine ⟨?_, hext⟩
      intro kv hkv
      simp only [SessionOp.apply, Session.compact_context, if_pos hc] at hkv
      exact Logged_mono hext (hinv kv (List.mem_filter.mp hkv).1)
    · have hext : HistoryExtends s ((SessionOp.compact_context keep).apply s) :=
        ⟨[], by simp only [SessionOp.apply, Session.compact_context, if_neg hc,
          List.append_nil]⟩
      refine ⟨?_, hext⟩
      intro kv hkv
      simp only [SessionOp.apply, Session.compact_context, if_neg hc] at hkv
      exact Logged_mono hext (hinv kv hkv)


/-- Under a reviewer that reports a critical finding on every re-review,
the loop body runs its full fuel: it performs `fuel` more iterations,
compacts the session once per iteration, and ends on the artifact of the
last refinement. -/
theorem refinement_loop_from_all_critical (env : Env) (R : Nat → GenRes)
    (V : Nat → ReviewRes)
    (hR : ∀ i, env.refine i = .ok (R i))
    (hV : ∀ i, env.review_refined i = .ok (V i))
    (hcrit : ∀ i, 0 < (V i).critical_issues) :
    ∀ (fuel iteration : Nat) (s : Session) (cur : GenRes),
      refinement_loop_from env fuel iteration s cur =
        .ok (if fuel = 0 then cur else R (iteration + fuel),
             csession^[fuel] s, iteration + fuel, fuel) := by
  intro fuel
  induction fuel with
  | zero => intro iteration s cur; simp [refinement_loop_from]
  | succ n ih =>
    intro iteration s cur
    have hcrit' : ¬((V (iteration + 1)).critical_issues = 0) := by
      have := hcrit (iteration + 1); omega
    simp only [refinement_loop_from, hR, hV]
    rw [if_neg hcrit', ih (iteration + 1) (csession s) (R (iteration + 1))]
    rw [← Function.iterate_succ_apply csession n s]
    rcases Nat.eq_zero_or_pos n with hn | hn
    · subst hn; simp
    · rw [if_neg (by omega : ¬(n = 0)), if_neg (by omega : ¬(n + 1 = 0))]
      have h1 : iteration + 1 + n = iteration + (n + 1) := by omega
      rw [h1]

/-- If the re-reviews of the next `m'` iterations all report a critical
finding and the re-review of iteration `iteration + m' + 1` reports none,
the loop stops right there: `m' + 1` more iterations, `m'` compactions,
and the revision of the final iteration as result. -/
theorem refinement_loop_from_success (env : Env) (R : Nat → GenRes)
    (V : Nat → ReviewRes)
    (hR : ∀ i, env.refine i = .ok (R i))
    (hV : ∀ i, env.review_refined i = .ok (V i)) :
    ∀ (m' fuel iteration : Nat) (s : Session) (cur : GenRes),
      m' + 1 ≤ fuel →
      (∀ i, iteration < i → i < iteration + (m' + 1) → 0 < (V i).critical_issues) →
      (V (iteration + (m' + 1))).critical_issues = 0 →
      refinement_loop_from env fuel iteration s cur =
        .ok (R (iteration + (m' + 1)), csession^[m'] s, iteration + (m' + 1), m') := by
  intro m'
  induction m' with
  | zero =>
    intro fuel iteration s cur hfuel hcrit hzero
    obtain ⟨f, rfl⟩ : ∃ f, fuel = f + 1 := ⟨fuel - 1, by omega⟩
    simp only [refinement_loop_from, hR, hV]
    rw [if_pos hzero]
    simp
  | succ m ih =>
    intro fuel iteration s cur hfuel hcrit hzero
    obtain ⟨f, rfl⟩ : ∃ f, fuel = f + 1 := ⟨fuel - 1, by omega⟩
    have hcrit1 : ¬((V (iteration + 1)).critical_issues = 0) := by
      have := hcrit (iteration + 1) (by omega) (by omega); omega
    simp only [refinement_loop_from, hR, hV]
    rw [if_neg hcrit1]
    have harg : iteration + 1 + (m + 1) = iteration + (m + 1 + 1) := by omega
    rw [ih f (iteration + 1) (csession s) (R (iteration + 1)) (by omega)
      (fun i h1 h2 => hcrit i (by omega) (by omega)) (by rw [harg]; exact hzero)]
    rw [← Function.iterate_succ_apply csession m s, harg]


/-- Entry-point form of the exhaustion lemma (`iteration = 0`). -/
theorem refinement_loop_all_critical (env : Env) (R : Nat → GenRes) (V : Nat → ReviewRes)
    (hR : ∀ i, env.refine i = .ok (R i)) (hV : ∀ i, env.review_refined i = .ok (V i))
    (hcrit : ∀ i, 0 < (V i).critical_issues) (s : Session) (a : GenRes)
    (m : Nat) (hm : 0 < m) :
    refinement_loop env s a m = .ok (R m, csession^[m] s, m, m) := by
  rw [refinement_loop, refinement_loop_from_all_critical env R V hR hV hcrit m 0 s a]
  rw [if_neg (by omega : ¬(m = 0)), Nat.zero_add]

/-- Entry-point form of the early-success lemma (`iteration = 0`). -/
theorem refinement_loop_success (env : Env) (R : Nat → GenRes) (V : Nat → ReviewRes)
    (hR : ∀ i, env.refine i = .ok (R i)) (hV : ∀ i, env.review_refined i = .ok (V i))
    (s : Session) (a : GenRes) (m k : Nat) (hk1 : 1 ≤ k) (hkm : k ≤ m)
    (hc : ∀ i, 1 ≤ i → i < k → 0 < (V i).critical_issues)
    (hz : (V k).critical_issues = 0) :
    refinement_loop env s a m = .ok (R k, csession^[k - 1] s, k, k - 1) := by
  obtain ⟨m', rfl⟩ : ∃ m', k = m' + 1 := ⟨k - 1, by omega⟩
  rw [refinement_loop]
  rw [refinement_loop_from_success env R V hR hV m' m 0 s a (by omega)
    (fun i h1 h2 => hc i (by omega) (by omega)) (by simpa using hz)]
  simp

/-- Constant collaborator responses for the concrete runs below. -/
def RconstDemo : Nat → GenRes := fun _ => { file_path := "refined.yml" }

/-- Re-reviews that always report one critical finding. -/
def VcritDemo : Nat → ReviewRes := fun _ => { report_path := "rr.md", critical_issues := 1 }

/-- A run whose reviewer reports critical findings on the initial review
and on every re-review. -/
def envAllCritical : Env :=
  { parse := .ok ⟨true, .str "spec"⟩
    gen_documentation := .ok ⟨"doc.md"⟩
    gen_ansible := .ok ⟨"play.yml", some "hosts.ini"⟩
    review_initial := .ok ⟨"review.md", 2⟩
    refine := fun i => .ok (RconstDemo i)
    review_refined := fun i => .ok (VcritDemo i)
    gen_tests := .ok ⟨"tests_dir"⟩
    gen_cicd := .ok ⟨"ci.yml"⟩
    path_exists := fun _ => true }

/-- Same run, but the first re-review already reports zero critical
findings. -/
def envFirstPass : Env :=
  { envAllCritical with review_refined := fun _ => .ok ⟨"rr.md", 0⟩ }


theorem process_all_critical_reaches_tests :
    ∀ (env : Env) (sid : String) (sr : SpecParseRes) (d : GenRes) (a : AnsibleRes)
      (rv : ReviewRes) (R : Nat → GenRes) (V : Nat → ReviewRes) (t : TestRes) (c : CicdRes),
      env.parse = .ok sr → sr.valid = true →
      env.gen_documentation = .ok d → env.gen_ansible = .ok a →
      env.review_initial = .ok rv → 0 < rv.critical_issues →
      (∀ i, env.refine i = .ok (R i)) → (∀ i, env.review_refined i = .ok (V i)) →
      (∀ i, 0 < (V i).critical_issues) →
      env.gen_tests = .ok t → env.gen_cicd = .ok c →
      (process_automation_request env sid).result.success = true ∧
      dictGet (process_automation_request env sid).result.artifacts "ansible_playbook"
        = some (R 3).file_path ∧
      "test_generator" ∈ (process_automation_request env sid).invocations := by
  intro env sid sr d a rv R V t c hp hv hd ha hr hcrit0 hR hV hcrit ht hc
  simp only [process_automation_request, processAux, hp, hv, hd, ha, hr]
  rw [if_neg (by simp : ¬(true = false)), if_pos hcrit0]
  rw [refinement_loop_all_critical env R V hR hV hcrit _ _ 3 (by omega)]
  simp only [pipeline_tail, ht, hc]
  refine ⟨by trivial, ?_, ?_⟩
  · rw [dictGet_dictSet_ne _ _ _ _ (by decide),
      dictGet_dictSet_ne _ _ _ _ (by decide),
      dictGet_dictSet_self]
  · simp


/-- C1: the refinement loop is bounded by `max_iterations`.  (i) When every
re-review reports at least one critical finding, the loop runs exactly
`max_iterations` iterations and returns the artifact of the last
refinement; (ii) when the first zero-critical re-review happens at
iteration `k ≤ max_iterations`, the loop stops at exactly iteration `k`
and returns that iteration's revision; (iii) in case (i) the engine then
proceeds to test generation with the last refined artifact as the primary
artifact. -/
theorem C1_refinement_loop_bounded :
    (∀ (env : Env) (R : Nat → GenRes) (V : Nat → ReviewRes) (s : Session)
       (a : GenRes) (m : Nat),
       (∀ i, env.refine i = .ok (R i)) → (∀ i, env.review_refined i = .ok (V i)) →
       (∀ i, 0 < (V i).critical_issues) → 0 < m →
       refinement_loop env s a m = .ok (R m, csession^[m] s, m, m)) ∧
    (∀ (env : Env) (R : Nat → GenRes) (V : Nat → ReviewRes) (s : Session)
       (a : GenRes) (m k : Nat),
       (∀ i, env.refine i = .ok (R i)) → (∀ i, env.review_refined i = .ok (V i)) →
       1 ≤ k → k ≤ m →
       (∀ i, 1 ≤ i → i < k → 0 < (V i).critical_issues) →
       (V k).critical_issues = 0 →
       refinement_loop env s a m = .ok (R k, csession^[k - 1] s, k, k - 1)) ∧
    (∀ (env : Env) (sid : String) (sr : SpecParseRes) (d : GenRes) (a : AnsibleRes)
       (rv : ReviewRes) (R : Nat → GenRes) (V : Nat → ReviewRes) (t : TestRes)
       (c : CicdRes),
       env.parse = .ok sr → sr.valid = true →
       env.gen_documentation = .ok d → env.gen_ansible = .ok a →
       env.review_initial = .ok rv → 0 < rv.critical_issues →
       (∀ i, env.refine i = .ok (R i)) → (∀ i, env.review_refined i = .ok (V i)) →
       (∀ i, 0 < (V i).critical_issues) →
       env.gen_tests = .ok t → env.gen_cicd = .ok c →
       (process_automation_request env sid).result.success = true ∧
       dictGet (process_automation_request env sid).result.artifacts "ansible_playbook"
         = some (R 3).file_path ∧
       "test_generator" ∈ (process_automation_request env sid).invocations) :=
  ⟨fun env R V s a m hR hV hcrit hm =>
     refinement_loop_all_critical env R V hR hV hcrit s a m hm,
   fun env R V s a m k hR hV hk1 hkm hc hz =>
     refinement_loop_success env R V hR hV s a m k hk1 hkm hc hz,
   process_all_critical_reaches_tests⟩

/-- Witness for C1: a concrete always-critical run with `max_iterations=3`
performs exactly 3 iterations and ends on the last refinement. -/
theorem C1_refinement_loop_bounded_witness :
    (0 < 3) ∧
    refinement_loop envAllCritical { session_id := "w" } ⟨"play.yml"⟩ 3 =
      .ok (RconstDemo 3, csession^[3] { session_id := "w" }, 3, 3) :=
  ⟨by decide,
   C1_refinement_loop_bounded.1 envAllCritical RconstDemo VcritDemo
     { session_id := "w" } ⟨"play.yml"⟩ 3 (fun _ => rfl) (fun _ => rfl)
     (fun _ => Nat.one_pos) (by decide)⟩

/-- C4 counterexample: with a first re-review reporting zero critical
findings, the loop returns after one iteration with the session UNTOUCHED
(zero `compact_context` calls), although compacting this ten-key session
would shrink it — so the terminating successful iteration is NOT followed
by a compaction, contrary to the claim. -/
theorem C4_counterexample :
    refinement_loop envFirstPass sTen ⟨"play.yml"⟩ 3 =
      .ok ({ file_path := "refined.yml" }, sTen, 1, 0) ∧
    (sTen.compact_context 3).context.length ≠ sTen.context.length := by
  exact ⟨rfl, by decide⟩

/-- C4 (amended): inside the refinement loop the session is compacted
(`keep_recent=3`) after every iteration EXCEPT the terminating successful
one: `k - 1` compactions when the loop succeeds at iteration `k`, and
`max_iterations` compactions when the loop exhausts its bound.  The
projection keeps the final session and the number of `compact_context`
calls. -/
theorem C4_compaction_skips_final_success :
    (∀ (env : Env) (R : Nat → GenRes) (V : Nat → ReviewRes) (s : Session)
       (a : GenRes) (m k : Nat),
       (∀ i, env.refine i = .ok (R i)) → (∀ i, env.review_refined i = .ok (V i)) →
       1 ≤ k → k ≤ m →
       (∀ i, 1 ≤ i → i < k → 0 < (V i).critical_issues) →
       (V k).critical_issues = 0 →
       (refinement_loop env s a m).map (fun r => (r.2.1, r.2.2.2)) =
         .ok (csession^[k - 1] s, k - 1)) ∧
    (∀ (env : Env) (R : Nat → GenRes) (V : Nat → ReviewRes) (s : Session)
       (a : GenRes) (m : Nat),
       (∀ i, env.refine i = .ok (R i)) → (∀ i, env.review_refined i = .ok (V i)) →
       (∀ i, 0 < (V i).critical_issues) → 0 < m →
       (refinement_loop env s a m).map (fun r => (r.2.1, r.2.2.2)) =
         .ok (csession^[m] s, m)) := by
  constructor
  · intro env R V s a m k hR hV hk1 hkm hc hz
    rw [refinement_loop_success env R V hR hV s a m k hk1 hkm hc hz]; rfl
  · intro env R V s a m hR hV hcrit hm
    rw [refinement_loop_all_critical env R V hR hV hcrit s a m hm]; rfl

/-- Witness for the amended C4: success at iteration 1 of 3 performs zero
compactions and returns the session as it came in. -/
theorem C4_compaction_skips_final_success_witness :
    ((1 : Nat) ≤ 1 ∧ (1 : Nat) ≤ 3) ∧
    (refinement_loop envFirstPass sTen ⟨"play.yml"⟩ 3).map (fun r => (r.2.1, r.2.2.2)) =
      .ok (csession^[1 - 1] sTen, 1 - 1) :=
  ⟨⟨le_refl 1, by decide⟩,
   C4_compaction_skips_final_success.1 envFirstPass RconstDemo
     (fun _ => ⟨"rr.md", 0⟩) sTen ⟨"play.yml"⟩ 3 1 (fun _ => rfl) (fun _ => rfl)
     (le_refl 1) (by decide) (fun i h1 h2 => absurd (lt_of_le_of_lt h1 h2) (by omega)) rfl⟩


/-- C8: when the parser reports an invalid specification the run returns
`success=false` with an empty artifact map and the recorded error, and no
downstream collaborator (documentation, Ansible, reviewer, test or
pipeline generator) is ever invoked. -/
theorem C8_parse_invalid_aborts :
    ∀ (env : Env) (sid : String) (sr : SpecParseRes),
      env.parse = .ok sr → sr.valid = false →
      process_automation_request env sid =
        { result := { success := false, artifacts := [],
                      errors := ["Specification validation failed"] }
          invocations := ["spec_parser"], validation := Option.none } ∧
      "documentation_agent" ∉ (process_automation_request env sid).invocations ∧
      "ansible_generator" ∉ (process_automation_request env sid).invocations ∧
      "code_reviewer" ∉ (process_automation_request env sid).invocations ∧
      "test_generator" ∉ (process_automation_request env sid).invocations ∧
      "cicd_agent" ∉ (process_automation_request env sid).invocations := by
  intro env sid sr hp hv
  have h : process_automation_request env sid =
      { result := { success := false, artifacts := [],
                    errors := ["Specification validation failed"] }
        invocations := ["spec_parser"], validation := Option.none } := by
    simp only [process_automation_request, processAux, hp, hv]
    rfl
  refine ⟨h, ?_, ?_, ?_, ?_, ?_⟩ <;> rw [h] <;> decide

/-- C10: every `success=false` result carries an empty artifact map; in
particular a documentation artifact produced before a fatal Ansible
failure is discarded rather than reported as partial output. -/
theorem C10_failed_runs_return_empty_artifacts :
    (∀ (env : Env) (sid : String),
       (process_automation_request env sid).result.success = false →
       (process_automation_request env sid).result.artifacts = []) ∧
    (∀ (env : Env) (sid : String) (sr : SpecParseRes) (d : GenRes) (e : String),
       env.parse = .ok sr → sr.valid = true →
       env.gen_documentation = .ok d → env.gen_ansible = .error e →
       (process_automation_request env sid).result.success = false ∧
       (process_automation_request env sid).result.artifacts = []) := by
  constructor
  · intro env sid h
    unfold process_automation_request at h ⊢
    cases hp : processAux env sid with
    | failed errs inv => simp [hp, create_error_result]
    | completed arts errs inv v => rw [hp] at h; simp at h
  · intro env sid sr d e hp hv hd ha
    have h : process_automation_request env sid =
        { result := create_error_result ["Ansible generation failed: " ++ e]
          invocations := ["spec_parser", "documentation_agent", "ansible_generator"]
          validation := Option.none } := by
      simp only [process_automation_request, processAux, hp, hv, hd, ha]
      rfl
    rw [h]
    exact ⟨rfl, rfl⟩


/-- Collaborators started by a run outcome. -/
def ProcOut.invocations : ProcOut → List String
  | .failed _ inv => inv
  | .completed _ _ inv _ => inv

/-- Error strings carried by a run outcome. -/
def ProcOut.errors : ProcOut → List String
  | .failed errs _ => errs
  | .completed _ errs _ _ => errs

theorem process_invocations_eq (env : Env) (sid : String) :
    (process_automation_request env sid).invocations = (processAux env sid).invocations := by
  unfold process_automation_request
  cases processAux env sid <;> rfl

theorem process_errors_eq (env : Env) (sid : String) :
    (process_automation_request env sid).result.errors = (processAux env sid).errors := by
  unfold process_automation_request
  cases processAux env sid <;> rfl

theorem pipeline_tail_inv_mono (env : Env) (arts : List (String × String))
    (errs inv : List String) (s : Session) {x : String} (hx : x ∈ inv) :
    x ∈ (pipeline_tail env arts errs inv s).invocations := by
  unfold pipeline_tail
  rcases env.gen_tests with te | t
  · simp [ProcOut.invocations, hx]
  · rcases env.gen_cicd with ce | c
    · simp [ProcOut.invocations, hx]
    · simp [ProcOut.invocations, hx]

theorem pipeline_tail_err_mono (env : Env) (arts : List (String × String))
    (errs inv : List String) (s : Session) {e : String} (he : e ∈ errs) :
    e ∈ (pipeline_tail env arts errs inv s).errors := by
  unfold pipeline_tail
  rcases env.gen_tests with te | t
  · simp [ProcOut.errors, he]
  · rcases env.gen_cicd with ce | c
    · simp [ProcOut.errors, he]
    · simp [ProcOut.errors, he]

theorem pipeline_tail_completed_arts (env : Env) (arts : List (String × String))
    (errs inv : List String) (s : Session) (arts' : List (String × String))
    (errs' inv' : List String) (v : Bool)
    (h : pipeline_tail env arts errs inv s = .completed arts' errs' inv' v) :
    ∃ td pp, arts' = dictSet (dictSet arts "tests" td) "cicd_pipeline" pp := by
  unfold pipeline_tail at h
  cases htest : env.gen_tests with
  | error te => rw [htest] at h; simp at h
  | ok t =>
    rw [htest] at h
    cases hcc : env.gen_cicd with
    | error ce => rw [hcc] at h; simp at h
    | ok c =>
      rw [hcc] at h
      simp only [ProcOut.completed.injEq] at h
      exact ⟨t.test_dir, c.pipeline_path, h.1.symm⟩


/-- C2: the parallel generation phase is a join barrier, not a race: both
branch outcomes are always inspected.  A primary-artifact (Ansible) failure
is fatal -- the run aborts with the accumulated errors (including a
documentation error when both failed) and no later collaborator is
invoked.  A documentation failure only appends an error string, leaves the
`documentation` key out of the artifact map, and lets the pipeline
continue into review. -/
theorem C2_parallel_join_barrier :
    ∀ (env : Env) (sid : String) (sr : SpecParseRes),
      env.parse = .ok sr → sr.valid = true →
      ("documentation_agent" ∈ (process_automation_request env sid).invocations ∧
       "ansible_generator" ∈ (process_automation_request env sid).invocations) ∧
      (∀ e, env.gen_ansible = .error e →
        process_automation_request env sid =
          { result := create_error_result
              ((match env.gen_documentation with
                | .error de => ["Documentation generation failed: " ++ de]
                | .ok _ => []) ++ ["Ansible generation failed: " ++ e])
            invocations := ["spec_parser", "documentation_agent", "ansible_generator"]
            validation := Option.none } ∧
        "code_reviewer" ∉ (process_automation_request env sid).invocations) ∧
      (∀ de (a : AnsibleRes),
        env.gen_documentation = .error de → env.gen_ansible = .ok a →
        ("Documentation generation failed: " ++ de)
            ∈ (process_automation_request env sid).result.errors ∧
        "code_reviewer" ∈ (process_automation_request env sid).invocations ∧
        (∀ arts errs inv v, processAux env sid = .completed arts errs inv v →
          dictGet arts "documentation" = Option.none)) := by
  intro env sid sr hp hv
  have hvalid : ¬(sr.valid = false) := by simp [hv]
  refine ⟨?_, ?_, ?_⟩
  · -- both generation branches are started in every post-parse run
    have hA : ∀ x ∈ (["spec_parser", "documentation_agent",
        "ansible_generator"] : List String), x ∈ (processAux env sid).invocations := by
      intro x hx
      simp only [processAux, hp]
      rw [if_neg hvalid]
      rcases hd : env.gen_documentation with de | d <;> simp only [hd] <;>
        rcases ha : env.gen_ansible with ae | a <;> simp only [ha]
      case error.error => simp only [ProcOut.invocations]; exact hx
      case error.ok | ok.ok =>
        rcases hr : env.review_initial with re | rv <;> simp only [hr]
        · simp only [ProcOut.invocations]; exact List.mem_append_left _ hx
        · by_cases hcr : 0 < rv.critical_issues
          · rw [if_pos hcr]
            rcases hl : refinement_loop env _ ⟨a.file_path⟩ 3 with le | ⟨rf, s4, it4, cp4⟩ <;>
              simp only [hl]
            · simp only [ProcOut.invocations]; exact List.mem_append_left _ hx
            · exact pipeline_tail_inv_mono _ _ _ _ _ (List.mem_append_left _ hx)
          · rw [if_neg hcr]
            exact pipeline_tail_inv_mono _ _ _ _ _ (List.mem_append_left _ hx)
      case ok.error => simp only [ProcOut.invocations]; exact hx
    rw [process_invocations_eq]
    exact ⟨hA "documentation_agent" (by decide), hA "ansible_generator" (by decide)⟩
  · -- a primary-artifact failure aborts with the accumulated errors
    intro e ha
    have h : process_automation_request env sid =
        { result := create_error_result
            ((match env.gen_documentation with
              | .error de => ["Documentation generation failed: " ++ de]
              | .ok _ => []) ++ ["Ansible generation failed: " ++ e])
          invocations := ["spec_parser", "documentation_agent", "ansible_generator"]
          validation := Option.none } := by
      simp only [process_automation_request, processAux, hp]
      rw [if_neg hvalid]
      rcases hd : env.gen_documentation with de | d <;> simp only [hd, ha]
    refine ⟨h, ?_⟩
    rw [h]
    simp
  · -- a documentation failure is non-fatal and leaves no artifact entry
    intro de a hd ha
    have herr : ("Documentation generation failed: " ++ de)
        ∈ (processAux env sid).errors ∧
        "code_reviewer" ∈ (processAux env sid).invocations ∧
        (∀ arts errs inv v, processAux env sid = .completed arts errs inv v →
          dictGet arts "documentation" = Option.none) := by
      simp only [processAux, hp]
      rw [if_neg hvalid]
      simp only [hd, ha]
      rcases hr : env.review_initial with re | rv <;> simp only [hr]
      · refine ⟨by simp [ProcOut.errors], by simp [ProcOut.invocations], ?_⟩
        intro arts errs inv v hcon
        cases hcon
      · by_cases hcr : 0 < rv.critical_issues
        · rw [if_pos hcr]
          rcases hl : refinement_loop env _ ⟨a.file_path⟩ 3 with le | ⟨rf, s4, it4, cp4⟩ <;>
            simp only [hl]
          · refine ⟨by simp [ProcOut.errors], by simp [ProcOut.invocations], ?_⟩
            intro arts errs inv v hcon
            cases hcon
          · refine ⟨pipeline_tail_err_mono _ _ _ _ _ (by simp),
              pipeline_tail_inv_mono _ _ _ _ _ (by simp), ?_⟩
            intro arts errs inv v hcon
            obtain ⟨td, pp, harts⟩ := pipeline_tail_completed_arts _ _ _ _ _ _ _ _ _ hcon
            subst harts
            rw [dictGet_dictSet_ne _ _ _ _ (by decide),
              dictGet_dictSet_ne _ _ _ _ (by decide),
              dictGet_dictSet_ne _ _ _ _ (by decide),
              dictGet_dictSet_ne _ _ _ _ (by decide),
              dictGet_dictSet_ne _ _ _ _ (by decide)]
            rfl
        · rw [if_neg hcr]
          refine ⟨pipeline_tail_err_mono _ _ _ _ _ (by simp),
            pipeline_tail_inv_mono _ _ _ _ _ (by simp), ?_⟩
          intro arts errs inv v hcon
          obtain ⟨td, pp, harts⟩ := pipeline_tail_completed_arts _ _ _ _ _ _ _ _ _ hcon
          subst harts
          rw [dictGet_dictSet_ne _ _ _ _ (by decide),
            dictGet_dictSet_ne _ _ _ _ (by decide),
            dictGet_dictSet_ne _ _ _ _ (by decide),
            dictGet_dictSet_ne _ _ _ _ (by decide)]
          rfl
    rw [process_errors_eq, process_invocations_eq]
    exact herr

/-- A run in which both parallel branches raise. -/
def envBothFail : Env :=
  { envAllCritical with
    gen_documentation := .error "doc boom"
    gen_ansible := .error "ansible boom" }

/-- Witness for C2: with both parallel branches failing, both branches are
still started and both errors reach the error list of the aborted run. -/
theorem C2_parallel_join_barrier_witness :
    envBothFail.parse = .ok ⟨true, PyVal.str "spec"⟩ ∧
    envBothFail.gen_ansible = .error "ansible boom" ∧
    ("documentation_agent" ∈ (process_automation_request envBothFail "w2").invocations ∧
     "ansible_generator" ∈ (process_automation_request envBothFail "w2").invocations) ∧
    process_automation_request envBothFail "w2" =
      { result := create_error_result
          (["Documentation generation failed: " ++ "doc boom"] ++
           ["Ansible generation failed: " ++ "ansible boom"])
        invocations := ["spec_parser", "documentation_agent", "ansible_generator"]
        validation := Option.none } :=
  ⟨rfl, rfl,
   (C2_parallel_join_barrier envBothFail "w2" ⟨true, PyVal.str "spec"⟩ rfl rfl).1,
   ((C2_parallel_join_barrier envBothFail "w2" ⟨true, PyVal.str "spec"⟩ rfl rfl).2.1
     "ansible boom" rfl).1⟩


/-- A run that reaches validation with no critical findings, on a
filesystem where no artifact location exists. -/
def envHappyNoFiles : Env :=
  { envAllCritical with
    review_initial := .ok ⟨"review.md", 0⟩
    path_exists := fun _ => false }

/-- C5: validation is observability only.  Every run that reaches the
validation phase returns `success=true` whatever boolean
`_validate_artifacts` computes; the boolean itself is `false` both when a
required artifact-type key is missing from the map and when a referenced
location does not exist, and a full concrete run with no file on disk
still ends with `success=true` next to `validation=false`. -/
theorem C5_validation_observability_only :
    (∀ (env : Env) (sid : String) (b : Bool),
       (process_automation_request env sid).validation = some b →
       (process_automation_request env sid).result.success = true) ∧
    validate_artifacts [("ansible_playbook", "p"), ("code_review", "r"),
      ("cicd_pipeline", "c")] (fun _ => true) = false ∧
    validate_artifacts [("ansible_playbook", "p"), ("code_review", "r"),
      ("tests", "t"), ("cicd_pipeline", "c")] (fun _ => false) = false ∧
    ((process_automation_request envHappyNoFiles "run-c5").validation = some false ∧
     (process_automation_request envHappyNoFiles "run-c5").result.success = true) := by
  refine ⟨?_, by decide, by decide, by decide, by decide⟩
  intro env sid b h
  unfold process_automation_request at h ⊢
  cases hp : processAux env sid with
  | failed errs inv => rw [hp] at h; simp at h
  | completed arts errs inv v => simp

/-- Witness for C5: the concrete no-files run reaches validation (which
computes `false`) and still returns `success=true`. -/
theorem C5_validation_observability_only_witness :
    (process_automation_request envHappyNoFiles "run-c5w").validation = some false ∧
    (process_automation_request envHappyNoFiles "run-c5w").result.success = true :=
  ⟨by decide,
   C5_validation_observability_only.1 envHappyNoFiles "run-c5w" false (by decide)⟩

/-- A run whose parser reports an invalid specification. -/
def envParseInvalid : Env :=
  { envAllCritical with parse := .ok ⟨false, PyVal.str "spec"⟩ }

/-- Witness for C8: the concrete invalid-spec run aborts with
`success=false`, no artifacts, the recorded error, and only the parser was
ever invoked. -/
theorem C8_parse_invalid_aborts_witness :
    envParseInvalid.parse = .ok ⟨false, PyVal.str "spec"⟩ ∧
    process_automation_request envParseInvalid "w8" =
      { result := { success := false, artifacts := [],
                    errors := ["Specification validation failed"] }
        invocations := ["spec_parser"], validation := Option.none } :=
  ⟨rfl,
   (C8_parse_invalid_aborts envParseInvalid "w8" ⟨false, PyVal.str "spec"⟩ rfl rfl).1⟩

/-- A run whose documentation branch succeeds while the Ansible branch
raises. -/
def envAnsFail : Env :=
  { envAllCritical with gen_ansible := .error "ansible exploded" }

/-- Witness for C10: documentation had already been produced, yet the
fatal Ansible failure returns an empty artifact map. -/
theorem C10_failed_runs_return_empty_artifacts_witness :
    envAnsFail.gen_ansible = .error "ansible exploded" ∧
    ((process_automation_request envAnsFail "w10").result.success = false ∧
     (process_automation_request envAnsFail "w10").result.artifacts = []) :=
  ⟨rfl,
   C10_failed_runs_return_empty_artifacts.2 envAnsFail "w10" ⟨true, PyVal.str "spec"⟩
     ⟨"doc.md"⟩ "ansible exploded" rfl rfl rfl rfl⟩


/-- C3: `compact_context(keep_recent=N)` on a context with more than `N`
keys keeps exactly the keys of the newest-to-oldest first-occurrence scan
(recency by last touch, overwrites included), and records every dropped
key with its value's type name under `metadata["compacted_items"]`: the
ten-key scenario keeps `key_7..key_9` and lists the other seven, and
re-adding `key_0` after `key_5..key_9` makes `key_0` more recent than
`key_1..key_4`. -/
theorem C3_compact_context_recency :
    ((sTen.compact_context 3).context.map Prod.fst = ["key_7", "key_8", "key_9"] ∧
     dictGet (sTen.compact_context 3).metadata "compacted_items" =
       some [("key_0", "str"), ("key_1", "str"), ("key_2", "str"), ("key_3", "str"),
             ("key_4", "str"), ("key_5", "str"), ("key_6", "str")]) ∧
    (sEleven.compact_context 3).context.map Prod.fst = ["key_0", "key_8", "key_9"] ∧
    (∀ (s : Session) (N : Nat), N < s.context.length →
      (s.compact_context N).context =
        s.context.filter (fun kv => (s.recent_keys N).contains kv.1) ∧
      dictGet (s.compact_context N).metadata "compacted_items" =
        some ((s.context.filter (fun kv => !(s.recent_keys N).contains kv.1)).map
          (fun kv => (kv.1, kv.2.typeName)))) := by
  refine ⟨⟨by decide, by decide⟩, by decide, ?_⟩
  intro s N h
  simp only [Session.compact_context, if_pos h]
  exact ⟨trivial, dictGet_dictSet_self _ _ _⟩

/-- Witness for C3: the general compaction equations evaluated on the
ten-key store with `keep_recent=3`. -/
theorem C3_compact_context_recency_witness :
    (3 < sTen.context.length) ∧
    ((sTen.compact_context 3).context =
       sTen.context.filter (fun kv => (sTen.recent_keys 3).contains kv.1) ∧
     dictGet (sTen.compact_context 3).metadata "compacted_items" =
       some ((sTen.context.filter (fun kv => !(sTen.recent_keys 3).contains kv.1)).map
         (fun kv => (kv.1, kv.2.typeName)))) :=
  ⟨by decide, C3_compact_context_recency.2.2 sTen 3 (by decide)⟩

/-- C9: every `Session` operation preserves the invariant that each
context key has a `context_added` history entry, and only ever extends the
history — no operation, compaction included, removes or truncates history
entries. -/
theorem C9_session_invariant_preserved :
    ∀ (op : SessionOp) (s : Session), s.ContextLogged →
      (op.apply s).ContextLogged ∧ HistoryExtends s (op.apply s) :=
  sessionOp_preserves

/-- Witness for C9: compacting the ten-key store preserves the invariant
and the history. -/
theorem C9_session_invariant_preserved_witness :
    sTen.ContextLogged ∧
    (((SessionOp.compact_context 3).apply sTen).ContextLogged ∧
     HistoryExtends sTen ((SessionOp.compact_context 3).apply sTen)) :=
  ⟨by decide,
   C9_session_invariant_preserved (SessionOp.compact_context 3) sTen (by decide)⟩

/-- A fresh `started` record for run id `A`. -/
def reqStartedA : RequestRecord := { session_id := "A", status := "started" }

/-- A metrics log holding two `started` records for the same run id. -/
def twoStartedA : MetricsCollector := { requests := [reqStartedA, reqStartedA] }

/-- C6 counterexample: with two `started` records for run id `A`,
`record_request_completed` mutates the FIRST (oldest) one — the source
scans `metrics["requests"]` from the front — not the most recent one the
claim describes. -/
theorem C6_counterexample :
    (twoStartedA.record_request_completed "A" 7 2).requests =
      [completeRecord 7 2 reqStartedA, reqStartedA] ∧
    (twoStartedA.record_request_completed "A" 7 2).requests ≠
      [reqStartedA, completeRecord 7 2 reqStartedA] := by
  exact ⟨by decide, by decide⟩

/-- C6 (amended): `record_request_completed` and `record_request_failed`
mutate the EARLIEST `started` record for the run id — the first match of a
forward scan from the start of the list — and mutate exactly one record,
leaving every other record unchanged. -/
theorem C6_forward_scan_mutates_earliest :
    ∀ (m : MetricsCollector) (sid : String) (t : Int) (n : Nat) (err : String)
      (l₁ l₂ : List RequestRecord) (r : RequestRecord),
      m.requests = l₁ ++ r :: l₂ → noStartedFor l₁ sid →
      r.session_id = sid → r.status = "started" →
      (m.record_request_completed sid t n).requests =
        l₁ ++ completeRecord t n r :: l₂ ∧
      (m.record_request_failed sid err).requests =
        l₁ ++ failRecord err r :: l₂ := by
  intro m sid t n err l₁ l₂ r hm h₁ hsid hst
  constructor
  · simp only [MetricsCollector.record_request_completed, hm]
    exact updateFirstStarted_found l₁ r l₂ sid _ h₁ hsid hst
  · simp only [MetricsCollector.record_request_failed, hm]
    exact updateFirstStarted_found l₁ r l₂ sid _ h₁ hsid hst

/-- Witness for the amended C6: on the two-`started` log the earliest
record is the one mutated, by both completion and failure. -/
theorem C6_forward_scan_mutates_earliest_witness :
    twoStartedA.requests = [] ++ reqStartedA :: [reqStartedA] ∧
    ((twoStartedA.record_request_completed "A" 7 2).requests =
       [] ++ completeRecord 7 2 reqStartedA :: [reqStartedA] ∧
     (twoStartedA.record_request_failed "A" "boom").requests =
       [] ++ failRecord "boom" reqStartedA :: [reqStartedA]) :=
  ⟨rfl,
   C6_forward_scan_mutates_earliest twoStartedA "A" 7 2 "boom" [] [reqStartedA]
     reqStartedA rfl (by decide) rfl rfl⟩

/-- C7: completing a run id that has no `started` record in the log is a
total no-op on the collector's in-memory state. -/
theorem C7_completed_without_started_is_noop :
    ∀ (m : MetricsCollector) (sid : String) (t : Int) (n : Nat),
      noStartedFor m.requests sid →
      m.record_request_completed sid t n = m := by
  intro m sid t n h
  have hu := updateFirstStarted_no_match m.requests sid (completeRecord t n) h
  cases m with
  | mk reqs ac errs =>
    simp only [MetricsCollector.record_request_completed] at hu ⊢
    rw [hu]

/-- A log with a `started` record for a different run id and a
non-`started` record for `A`. -/
def mNoStartA : MetricsCollector :=
  { requests := [{ session_id := "B", status := "started" },
                 { session_id := "A", status := "completed" }] }

/-- Witness for C7: completing `A` on a log without a `started` record for
`A` returns the log unchanged. -/
theorem C7_completed_without_started_is_noop_witness :
    noStartedFor mNoStartA.requests "A" ∧
    mNoStartA.record_request_completed "A" 7 2 = mNoStartA :=
  ⟨by decide, C7_completed_without_started_is_noop mNoStartA "A" 7 2 (by decide)⟩

end NautoFactory
